import Mathlib

/-!
Verification of the exit-node selector scripts (`set-exit.py` and `exits.py`).

The two Python scripts are shallowly embedded: the parsing, matching,
selection and validation pipeline is translated into executable Lean
definitions, with the two external subprocess calls (the listing fetch and
the activation call) reflected as data in the output records.  Python
strings are modelled over ASCII: whitespace, lower-casing and the digit
class are the ASCII ones, which cover every string the scripts compare.
The random `random.choice(l)` call is modelled by an ambient index `k`:
`pyChoice l k = l[k % l.length]?`, so a theorem quantified over `k` covers
every possible random outcome.
-/

namespace Exits

/-- ASCII whitespace, as stripped by Python `str.strip()` / `str.split()`
and matched by the regex class in the scripts. -/
def pyIsSpace (c : Char) : Bool :=
  c == ' ' || c == '\t' || c == '\n' || c == '\r' || c == '\x0b' || c == '\x0c'

/-- Python `str.strip()`: drop whitespace from both ends. -/
def pyStrip (l : List Char) : List Char :=
  ((l.dropWhile pyIsSpace).reverse.dropWhile pyIsSpace).reverse

/-- Split a character list on a delimiter character, keeping empty pieces:
Python `str.split(d)` for a single-character separator `d`. -/
def splitOnChar (d : Char) : List Char → List (List Char)
  | [] => [[]]
  | c :: cs =>
    if c == d then [] :: splitOnChar d cs
    else
      match splitOnChar d cs with
      | t :: ts => (c :: t) :: ts
      | [] => [[c]]

/-- Python `str.split()` with no argument: split on runs of whitespace,
dropping empty tokens.  `acc` accumulates the current token reversed. -/
def pySplitWSAux : List Char → List Char → List (List Char)
  | [], acc => if acc.isEmpty then [] else [acc.reverse]
  | c :: cs, acc =>
    if pyIsSpace c then
      if acc.isEmpty then pySplitWSAux cs []
      else acc.reverse :: pySplitWSAux cs []
    else pySplitWSAux cs (c :: acc)

/-- Python `re.split(r"\s{2,}", s)`: split on maximal runs of two or more
whitespace characters; a lone whitespace character stays inside its token.
`acc` is the current token reversed; `pend` holds the whitespace run read so
far but not yet classified (kept in the token when the run has length one,
a separator when it has length two or more). -/
def split2Aux : List Char → List Char → List Char → List (List Char)
  | [], acc, pend =>
    if 2 ≤ pend.length then [acc.reverse, []] else [(pend ++ acc).reverse]
  | c :: cs, acc, pend =>
    if pyIsSpace c then split2Aux cs acc (c :: pend)
    else
      if 2 ≤ pend.length then acc.reverse :: split2Aux cs [c] []
      else split2Aux cs (c :: (pend ++ acc)) []

/-- Python `line.startswith("#")`. -/
def startsHash : List Char → Bool
  | [] => false
  | c :: _ => c == '#'

/-- Python `str.lower()` (ASCII case folding, which covers the scripts'
inputs). -/
def pyLower (s : String) : String :=
  String.mk (s.data.map Char.toLower)

/-- `needle` is a prefix of `hay` (executable). -/
def isPrefixB : List Char → List Char → Bool
  | [], _ => true
  | _ :: _, [] => false
  | a :: as, b :: bs => a == b && isPrefixB as bs

/-- `needle` occurs as a contiguous sublist of `hay` (executable). -/
def isSubstrB (needle : List Char) : List Char → Bool
  | [] => needle.isEmpty
  | c :: rest => isPrefixB needle (c :: rest) || isSubstrB needle rest

/-- Python `needle in hay` on strings: substring containment. -/
def pyContains (hay needle : String) : Bool :=
  isSubstrB needle.data hay.data

/-- Lexicographic comparison of character lists by code point: the order
Python `sorted` uses on strings (executable, unlike the library order on
`String`). -/
def lexLe : List Char → List Char → Bool
  | [], _ => true
  | _ :: _, [] => false
  | a :: as, b :: bs =>
    if a.toNat < b.toNat then true
    else if b.toNat < a.toNat then false
    else lexLe as bs

/-- The string order used to model Python `sorted`. -/
def pyStrLe (a b : String) : Prop := lexLe a.data b.data = true

instance : DecidableRel pyStrLe := fun a b => instDecidableEqBool (lexLe a.data b.data) true

/-- Python `re.match(r"^\d{1,3}\.\d{1,3}\.\d{1,3}\.\d{1,3}$", s)` is truthy.
Since `\d` cannot match a literal dot, the regex accepts exactly the strings
that split on the dots into four runs of one to three digits; Python's `$`
also accepts one trailing newline after the quad. -/
def validIp (s : String) : Bool :=
  let l := s.data
  let core := match l.getLast? with
    | some c => if c == '\n' then l.dropLast else l
    | none => l
  let chunks := splitOnChar '.' core
  chunks.length == 4 &&
    chunks.all (fun ch => !ch.isEmpty && decide (ch.length ≤ 3) && ch.all Char.isDigit)

/-- The record built by both scripts for each listing line. -/
structure ExitNode where
  ip : String
  hostname : String
  country : String
  city : String
deriving DecidableEq

/-- The match field chosen by the command-line flags of `set-exit.py`
(`--hostname`, `--city`, default country). -/
inductive Field where
  | hostname
  | city
  | country
deriving DecidableEq

/-- Python `node[field]`. -/
def getField : Field → ExitNode → String
  | .hostname, n => n.hostname
  | .city, n => n.city
  | .country, n => n.country

/-! ## Parsing: `set-exit.py` (split on two or more spaces) -/

/-- Tokens of one line under the `set-exit.py` tokenization:
`re.split(r"\s{2,}", line.strip())`. -/
def seTokens (line : List Char) : List String :=
  (split2Aux (pyStrip line) [] []).map String.mk

/-- Body of the `set-exit.py` parsing loop for one non-comment line:
keep the line iff it has at least 4 fields. -/
def parseLineSE (line : List Char) : Option ExitNode :=
  match seTokens line with
  | ip :: hostname :: country :: city :: _ => some ⟨ip, hostname, country, city⟩
  | _ => none

/-- One iteration of the `set-exit.py` parsing loop, comment skip included. -/
def lineStepSE (line : List Char) : Option ExitNode :=
  if startsHash line then none else parseLineSE line

/-- `parse_exit_nodes` of `set-exit.py`. -/
def parse_exit_nodes_se (output : String) : List ExitNode :=
  (splitOnChar '\n' (pyStrip output.data)).filterMap lineStepSE

/-! ## Parsing: `exits.py` (whitespace split plus country heuristic) -/

/-- The fixed allow-list of multi-word country names in `exits.py`. -/
def allowlist : List String := ["South Africa", "United States", "United Kingdom"]

/-- The loop condition tested at index `i` by the country search of
`exits.py`: the joined prefix of length `i` is an allow-listed country and
at least one token remains after it. -/
def splitCond (remaining : List String) (i : Nat) : Prop :=
  remaining.drop i ≠ [] ∧ String.intercalate " " (remaining.take i) ∈ allowlist

instance (remaining : List String) (i : Nat) : Decidable (splitCond remaining i) :=
  instDecidableAnd

/-- The `for i in range(1, len(remaining_parts) + 1)` search in `exits.py`,
with `fuel` counting the iterations left: the first index (from `i`
upwards) satisfying `splitCond`, or `none` when the loop falls through. -/
def findSplitAux (remaining : List String) : Nat → Nat → Option Nat
  | _, 0 => none
  | i, fuel + 1 =>
    if splitCond remaining i then some i
    else findSplitAux remaining (i + 1) fuel

/-- The country search of `exits.py`: indices `1, ..., len(remaining)`. -/
def findSplit (remaining : List String) : Option Nat :=
  findSplitAux remaining 1 remaining.length

/-- The country/city split of `exits.py` on the tokens after ip and
hostname: the allow-list loop, then the fallback taking the first token as
the country.  The `[]` case cannot arise from the parser (which guarantees
at least two remaining tokens); Python would raise there. -/
def splitCountryCity (remaining : List String) : List String × List String :=
  match findSplit remaining with
  | some i => (remaining.take i, remaining.drop i)
  | none =>
    match remaining with
    | [] => ([], [])
    | r :: rs => ([r], rs)

/-- Tokens of one line under the `exits.py` tokenization: `line.split()`. -/
def exTokens (line : List Char) : List String :=
  (pySplitWSAux line []).map String.mk

/-- Body of the `exits.py` parsing loop on the token list of one line. -/
def parseTokensEx (parts : List String) : Option ExitNode :=
  match parts with
  | ip :: hostname :: remaining =>
    if 2 ≤ remaining.length then
      some ⟨ip, hostname,
        String.intercalate " " (splitCountryCity remaining).1,
        String.intercalate " " (splitCountryCity remaining).2⟩
    else none
  | _ => none

/-- Body of the `exits.py` parsing loop for one non-comment line. -/
def parseLineEx (line : List Char) : Option ExitNode :=
  parseTokensEx (exTokens line)

/-- One iteration of the `exits.py` parsing loop, comment skip included. -/
def lineStepEx (line : List Char) : Option ExitNode :=
  if startsHash line then none else parseLineEx line

/-- `parse_exit_nodes` of `exits.py`. -/
def parse_exit_nodes_ex (output : String) : List ExitNode :=
  (splitOnChar '\n' (pyStrip output.data)).filterMap lineStepEx

/-! ## Distinct values, matching, selection -/

/-- `get_unique_values` of `set-exit.py`:
`sorted(list({node[field] for node in nodes}))`. -/
def get_unique_values (nodes : List ExitNode) (field : Field) : List String :=
  List.insertionSort pyStrLe ((nodes.map (getField field)).dedup)

/-- `get_unique_countries` of `exits.py`. -/
def get_unique_countries (nodes : List ExitNode) : List String :=
  List.insertionSort pyStrLe ((nodes.map (fun n => n.country)).dedup)

/-- The match step shared by both scripts:
`[v for v in values if pattern.lower() in v.lower()]`. -/
def matchingValues (pattern : String) (values : List String) : List String :=
  values.filter (fun v => pyContains (pyLower v) (pyLower pattern))

/-- `random.choice(l)` with the ambient random index `k`; `none` models the
`IndexError` raised on an empty list. -/
def pyChoice {α : Type} (l : List α) (k : Nat) : Option α :=
  l[k % l.length]?

/-! ## The two mains, with external calls reflected as data -/

/-- The messages both scripts write to stderr with `click.echo(err=True)`,
with the data they report. -/
inductive ErrMsg where
  | noExitNodes
  | noMatch (field : Field) (pattern : String) (available : List String)
  | ambiguous (field : Field) (pattern : String) (colliding : List String)
  | invalidIp
deriving DecidableEq

/-- What `get_node` of `set-exit.py` evaluates to: a node, the Python
`None` return taken on every error path, or the `IndexError` of
`random.choice` on an empty list (shown below to be unreachable). -/
inductive GetNodeRes where
  | found (n : ExitNode)
  | noneRet
  | crash
deriving DecidableEq

/-- Observable outcome of `get_node`: its return value, the stderr
messages it emitted, and whether it invoked the listing collaborator
(`tailscale exit-node list`). -/
structure GetNodeOut where
  res : GetNodeRes
  errs : List ErrMsg
  fetched : Bool
deriving DecidableEq

/-- Observable outcome of a whole script run: stdout lines, stderr
messages, the ip arguments passed to the activation collaborator
(`tailscale set --exit-node`), whether the listing collaborator ran, and
whether the process died with an uncaught Python exception. -/
structure MainOut where
  stdout : List String
  stderr : List ErrMsg
  activations : List String
  fetched : Bool
  crashed : Bool
deriving DecidableEq

/-- The local `values` of `get_node` in `set-exit.py`. -/
def se_values (field : Field) (listing : String) : List String :=
  get_unique_values (parse_exit_nodes_se listing) field

/-- The local `matching_values` of `get_node` in `set-exit.py`. -/
def se_matching (field : Field) (pattern listing : String) : List String :=
  matchingValues pattern (se_values field listing)

/-- The local `filtered_nodes` of `get_node` in `set-exit.py` (the matched
value `matching_values[0]` is reached only when `matching_values` is a
singleton, so `headD` is exact there). -/
def se_filtered (field : Field) (pattern listing : String) : List ExitNode :=
  (parse_exit_nodes_se listing).filter
    (fun n => getField field n == (se_matching field pattern listing).headD "")

/-- The tail of `get_node` after `random.choice`: the ip format check. -/
def selectOutcome : Option ExitNode → GetNodeOut
  | none => { res := .crash, errs := [], fetched := true }
  | some n =>
    if validIp n.ip then { res := .found n, errs := [], fetched := true }
    else { res := .noneRet, errs := [.invalidIp], fetched := true }

/-- `get_node` of `set-exit.py`. -/
def get_node (field : Field) (pattern : String) (listing : String) (k : Nat) :
    GetNodeOut :=
  if pattern = "none" then
    { res := .found ⟨"", "", "", ""⟩, errs := [], fetched := false }
  else if se_values field listing = [] then
    { res := .noneRet, errs := [.noExitNodes], fetched := true }
  else if se_matching field pattern listing = [] then
    { res := .noneRet, errs := [.noMatch field pattern (se_values field listing)],
      fetched := true }
  else if 1 < (se_matching field pattern listing).length then
    { res := .noneRet, errs := [.ambiguous field pattern (se_matching field pattern listing)],
      fetched := true }
  else selectOutcome (pyChoice (se_filtered field pattern listing) k)

/-- The dry-run line `f"Would set exit node to: {ip} ({hostname}, {city},
{country})"` printed by both scripts. -/
def previewMsg (n : ExitNode) : String :=
  "Would set exit node to: " ++ n.ip ++ " (" ++ n.hostname ++ ", " ++ n.city ++
    ", " ++ n.country ++ ")"

/-- The line `f"Exit node set to: {ip}"` printed by `set_exit_node`. -/
def setMsg (ip : String) : String :=
  "Exit node set to: " ++ ip

/-- `main` of `set-exit.py`.  When `get_node` returns `None` (every error
path), `main` immediately evaluates `selected_node["ip"]`, which raises an
uncaught `TypeError`: modelled by `crashed := true`. -/
def mainSE (field : Field) (pattern : String) (dryRun : Bool) (listing : String)
    (k : Nat) : MainOut :=
  let g := get_node field pattern listing k
  match g.res with
  | .found n =>
    if dryRun then
      { stdout := [previewMsg n], stderr := g.errs, activations := [],
        fetched := g.fetched, crashed := false }
    else
      { stdout := [setMsg n.ip], stderr := g.errs, activations := [n.ip],
        fetched := g.fetched, crashed := false }
  | .noneRet =>
    { stdout := [], stderr := g.errs, activations := [], fetched := g.fetched,
      crashed := true }
  | .crash =>
    { stdout := [], stderr := g.errs, activations := [], fetched := g.fetched,
      crashed := true }

/-- The local `countries` of `main` in `exits.py`. -/
def ex_countries (listing : String) : List String :=
  get_unique_countries (parse_exit_nodes_ex listing)

/-- The local `matching_countries` of `main` in `exits.py`. -/
def ex_matching (country listing : String) : List String :=
  matchingValues country (ex_countries listing)

/-- The local `filtered_nodes` of `main` in `exits.py`. -/
def ex_filtered (country listing : String) : List ExitNode :=
  (parse_exit_nodes_ex listing).filter
    (fun n => n.country == (ex_matching country listing).headD "")

/-- The tail of `main` in `exits.py` after `random.choice`: ip format
check, then dry-run preview or activation. -/
def exOutcome (dryRun : Bool) : Option ExitNode → MainOut
  | none =>
    { stdout := [], stderr := [], activations := [], fetched := true, crashed := true }
  | some n =>
    if validIp n.ip then
      if dryRun then
        { stdout := [previewMsg n], stderr := [], activations := [], fetched := true,
          crashed := false }
      else
        { stdout := [setMsg n.ip], stderr := [], activations := [n.ip], fetched := true,
          crashed := false }
    else
      { stdout := [], stderr := [.invalidIp], activations := [], fetched := true,
        crashed := false }

/-- `main` of `exits.py` (the pattern is always matched against the
country field; every error path returns normally). -/
def mainEx (country : String) (dryRun : Bool) (listing : String) (k : Nat) :
    MainOut :=
  if ex_countries listing = [] then
    { stdout := [], stderr := [.noExitNodes], activations := [], fetched := true,
      crashed := false }
  else if ex_matching country listing = [] then
    { stdout := [], stderr := [.noMatch .country country (ex_countries listing)],
      activations := [], fetched := true, crashed := false }
  else if 1 < (ex_matching country listing).length then
    { stdout := [], stderr := [.ambiguous .country country (ex_matching country listing)],
      activations := [], fetched := true, crashed := false }
  else exOutcome dryRun (pyChoice (ex_filtered country listing) k)

/-- A record carrying `v` in the given field and empty strings elsewhere:
the records-from-values construction used to state idempotence of the
distinct-value enumeration. -/
def mkNodeWith : Field → String → ExitNode
  | .hostname, v => ⟨"", v, "", ""⟩
  | .city, v => ⟨"", "", "", v⟩
  | .country, v => ⟨"", "", v, ""⟩

/-- The three-line example listing from the specification. -/
def exampleListing : String :=
  "100.64.0.1   node-se-1   Sweden         Stockholm\n" ++
  "100.64.0.2   node-se-2   Sweden         Gothenburg\n" ++
  "100.64.0.3   node-uk-1   United Kingdom London"

/-! ## Helper lemmas -/

/-- `random.choice` on a non-empty list always yields a member. -/
theorem pyChoice_eq_some {α : Type} (l : List α) (k : Nat) (h : l ≠ []) :
    ∃ a, pyChoice l k = some a ∧ a ∈ l := by
  have hlen : 0 < l.length := List.length_pos.2 h
  have hm : k % l.length < l.length := Nat.mod_lt _ hlen
  exact ⟨l.get ⟨k % l.length, hm⟩, by simp [pyChoice, List.getElem?_eq_getElem hm],
    List.get_mem _ _ _⟩

/-- Membership in the enumerated distinct values is exactly occurrence of
the value in some node's field. -/
theorem mem_get_unique_values {nodes : List ExitNode} {field : Field} {v : String} :
    v ∈ get_unique_values nodes field ↔ ∃ n ∈ nodes, getField field n = v := by
  unfold get_unique_values
  rw [List.mem_insertionSort, List.mem_dedup, List.mem_map]

/-- The code-point lexicographic comparison is total. -/
theorem lexLe_total : ∀ a b : List Char, lexLe a b = true ∨ lexLe b a = true
  | [], _ => Or.inl rfl
  | _ :: _, [] => Or.inr rfl
  | a :: as, b :: bs => by
    rcases Nat.lt_trichotomy a.toNat b.toNat with h | h | h
    · left; simp only [lexLe]; rw [if_pos h]
    · rcases lexLe_total as bs with ih | ih
      · left; simp only [lexLe]; rw [if_neg (by omega), if_neg (by omega)]; exact ih
      · right; simp only [lexLe]; rw [if_neg (by omega), if_neg (by omega)]; exact ih
    · right; simp only [lexLe]; rw [if_pos h]

/-- The code-point lexicographic comparison is transitive. -/
theorem lexLe_trans : ∀ a b c : List Char,
    lexLe a b = true → lexLe b c = true → lexLe a c = true
  | [], _, _, _, _ => rfl
  | _ :: _, [], _, hab, _ => by simp [lexLe] at hab
  | _ :: _, _ :: _, [], _, hbc => by simp [lexLe] at hbc
  | a :: as, b :: bs, c :: cs, hab, hbc => by
    simp only [lexLe] at hab hbc ⊢
    rcases Nat.lt_trichotomy a.toNat b.toNat with h1 | h1 | h1 <;>
      rcases Nat.lt_trichotomy b.toNat c.toNat with h2 | h2 | h2
    · rw [if_pos (Nat.lt_trans h1 h2)]
    · rw [if_pos (h2 ▸ h1)]
    · rw [if_neg (by omega), if_pos h2] at hbc
      exact absurd hbc Bool.false_ne_true
    · rw [if_pos (show a.toNat < c.toNat by omega)]
    · rw [if_neg (by omega), if_neg (by omega)] at hab
      rw [if_neg (by omega), if_neg (by omega)] at hbc
      rw [if_neg (by omega), if_neg (by omega)]
      exact lexLe_trans as bs cs hab hbc
    · rw [if_neg (by omega), if_pos h2] at hbc
      exact absurd hbc Bool.false_ne_true
    · rw [if_neg (by omega), if_pos h1] at hab
      exact absurd hab Bool.false_ne_true
    · rw [if_neg (by omega), if_pos h1] at hab
      exact absurd hab Bool.false_ne_true
    · rw [if_neg (by omega), if_pos h1] at hab
      exact absurd hab Bool.false_ne_true

/-- `filterMap` over a list on which `f` never drops keeps the length and
the positions. -/
theorem filterMap_all_some {α β : Type} (f : α → Option β) :
    ∀ L : List α, (∀ l ∈ L, (f l).isSome = true) →
      (L.filterMap f).length = L.length ∧
      ∀ i : Nat, (L.filterMap f)[i]? = (L[i]?).bind f
  | [], _ => ⟨rfl, fun i => by cases i <;> rfl⟩
  | a :: L, h => by
    rcases Option.isSome_iff_exists.1 (h a (List.mem_cons_self a L)) with ⟨b, hb⟩
    have ih := filterMap_all_some f L (fun l hl => h l (List.mem_cons_of_mem a hl))
    constructor
    · rw [List.filterMap_cons, hb]
      simpa using ih.1
    · intro i
      rw [List.filterMap_cons, hb]
      cases i with
      | zero => simp [hb]
      | succ j => simpa using ih.2 j

/-- `filterMap` only depends on the values of its function on the list. -/
theorem filterMap_congr_on {α β : Type} (f g : α → Option β) :
    ∀ L : List α, (∀ l ∈ L, f l = g l) → L.filterMap f = L.filterMap g
  | [], _ => rfl
  | a :: L, h => by
    rw [List.filterMap_cons, List.filterMap_cons, h a (List.mem_cons_self a L),
      filterMap_congr_on f g L (fun l hl => h l (List.mem_cons_of_mem a hl))]

/-- `filterMap` ignores the elements on which `f` yields `none`. -/
theorem filterMap_drop_filtered {α β : Type} (f : α → Option β) (p : α → Bool) :
    ∀ L : List α, (∀ l ∈ L, p l = false → f l = none) →
      L.filterMap f = (L.filter p).filterMap f
  | [], _ => rfl
  | a :: L, h => by
    have ih := filterMap_drop_filtered f p L (fun l hl => h l (List.mem_cons_of_mem a hl))
    rw [List.filterMap_cons, List.filter_cons]
    cases hp : p a with
    | true => rw [if_pos (by simp), List.filterMap_cons, ih]
    | false =>
      rw [h a (List.mem_cons_self a L) hp, if_neg (by simp)]
      exact ih

/-- A line with at least 4 fields under the multi-space tokenization is
kept by the `set-exit.py` parser. -/
theorem parseLineSE_isSome {line : List Char} (h : 4 ≤ (seTokens line).length) :
    (parseLineSE line).isSome = true := by
  unfold parseLineSE
  rcases hl : seTokens line with _ | ⟨a, _ | ⟨b, _ | ⟨c, _ | ⟨d, t⟩⟩⟩⟩ <;> rw [hl] at h
  all_goals first
  | rfl
  | (exfalso; simp only [List.length_cons, List.length_nil] at h; omega)

/-- A line with fewer than 4 fields under the multi-space tokenization is
discarded by the `set-exit.py` parser. -/
theorem parseLineSE_eq_none {line : List Char} (h : (seTokens line).length < 4) :
    parseLineSE line = none := by
  unfold parseLineSE
  rcases hl : seTokens line with _ | ⟨a, _ | ⟨b, _ | ⟨c, _ | ⟨d, t⟩⟩⟩⟩ <;> rw [hl] at h
  all_goals first
  | rfl
  | (exfalso; simp only [List.length_cons, List.length_nil] at h; omega)

/-- A line with at least 4 fields under the whitespace tokenization is
kept by the `exits.py` parser. -/
theorem parseLineEx_isSome {line : List Char} (h : 4 ≤ (exTokens line).length) :
    (parseLineEx line).isSome = true := by
  unfold parseLineEx parseTokensEx
  rcases hl : exTokens line with _ | ⟨a, _ | ⟨b, rest⟩⟩ <;> rw [hl] at h
  all_goals first
  | (exfalso; simp only [List.length_cons, List.length_nil] at h; omega)
  | (have h2 : 2 ≤ rest.length := by simp only [List.length_cons] at h; omega
     simp [h2])

/-- A line with fewer than 4 fields under the whitespace tokenization is
discarded by the `exits.py` parser. -/
theorem parseLineEx_eq_none {line : List Char} (h : (exTokens line).length < 4) :
    parseLineEx line = none := by
  unfold parseLineEx parseTokensEx
  rcases hl : exTokens line with _ | ⟨a, _ | ⟨b, rest⟩⟩ <;> rw [hl] at h
  all_goals first
  | rfl
  | (have h2 : ¬ 2 ≤ rest.length := by simp only [List.length_cons] at h; omega
     simp [h2])

/-- Executable prefix test agrees with the prefix decomposition. -/
theorem isPrefixB_iff : ∀ needle hay : List Char,
    isPrefixB needle hay = true ↔ ∃ t, hay = needle ++ t
  | [], hay => by simp [isPrefixB]
  | n :: ns, [] => by
    simp only [isPrefixB]
    constructor
    · intro h; exact absurd h Bool.false_ne_true
    · rintro ⟨t, ht⟩; cases ht
  | n :: ns, h :: hs => by
    simp only [isPrefixB, Bool.and_eq_true, beq_iff_eq]
    rw [isPrefixB_iff ns hs]
    constructor
    · rintro ⟨rfl, t, rfl⟩; exact ⟨t, rfl⟩
    · rintro ⟨t, ht⟩
      injection ht with h1 h2
      exact ⟨h1.symm, t, h2⟩

/-- Executable substring test agrees with the infix decomposition. -/
theorem isSubstrB_iff : ∀ (needle hay : List Char),
    isSubstrB needle hay = true ↔ ∃ l r, hay = l ++ needle ++ r
  | needle, [] => by
    simp only [isSubstrB, List.isEmpty_iff]
    constructor
    · rintro rfl; exact ⟨[], [], rfl⟩
    · rintro ⟨l, r, h⟩
      rcases List.append_eq_nil.1 h.symm with ⟨h1, h2⟩
      exact (List.append_eq_nil.1 h1).2
  | needle, c :: rest => by
    simp only [isSubstrB, Bool.or_eq_true]
    rw [isPrefixB_iff, isSubstrB_iff needle rest]
    constructor
    · rintro (⟨t, ht⟩ | ⟨l, r, hh⟩)
      · exact ⟨[], t, by simp [ht]⟩
      · exact ⟨c :: l, r, by simp [hh]⟩
    · rintro ⟨l, r, hh⟩
      cases l with
      | nil => exact Or.inl ⟨r, by simpa using hh⟩
      | cons x xs =>
        right
        injection hh with h1 h2
        exact ⟨xs, r, h2⟩

/-- When the country-search loop returns an index, that index satisfies the
loop condition and is the least index from the start point to do so. -/
theorem findSplitAux_some {remaining : List String} :
    ∀ fuel i j, findSplitAux remaining i fuel = some j →
      i ≤ j ∧ splitCond remaining j ∧ ∀ m, i ≤ m → m < j → ¬ splitCond remaining m
  | 0, i, j, h => by simp [findSplitAux] at h
  | fuel + 1, i, j, h => by
    rw [findSplitAux] at h
    by_cases hc : splitCond remaining i
    · rw [if_pos hc] at h
      injection h with h
      subst h
      exact ⟨Nat.le_refl i, hc, fun m hm1 hm2 => by intro _; omega⟩
    · rw [if_neg hc] at h
      obtain ⟨h1, h2, h3⟩ := findSplitAux_some fuel (i + 1) j h
      refine ⟨by omega, h2, ?_⟩
      intro m hm1 hm2
      by_cases hmi : m = i
      · subst hmi; exact hc
      · exact h3 m (by omega) hm2

/-- When the country-search loop falls through, no index it visited
satisfies the loop condition. -/
theorem findSplitAux_none {remaining : List String} :
    ∀ fuel i, findSplitAux remaining i fuel = none →
      ∀ m, i ≤ m → m < i + fuel → ¬ splitCond remaining m
  | 0, _, _, _, hm1, hm2 => by intro _; omega
  | fuel + 1, i, h, m, hm1, hm2 => by
    rw [findSplitAux] at h
    by_cases hc : splitCond remaining i
    · rw [if_pos hc] at h; cases h
    · rw [if_neg hc] at h
      by_cases hmi : m = i
      · subst hmi; exact hc
      · exact findSplitAux_none fuel (i + 1) h m (by omega) (by omega)

/-- Past the end of the token list the loop condition is vacuously false
(no token can remain after the prefix). -/
theorem splitCond_not_of_len {remaining : List String} {m : Nat}
    (h : remaining.length ≤ m) : ¬ splitCond remaining m := by
  intro hc
  exact hc.1 (List.drop_eq_nil_of_le h)

/-- When the pattern is not the `none` literal and no early error fires,
`get_node` reduces to choice plus ip validation. -/
theorem get_node_eq_select {field : Field} {pattern listing : String} {k : Nat}
    (hp : pattern ≠ "none") (h1 : se_values field listing ≠ [])
    (h2 : se_matching field pattern listing ≠ [])
    (h3 : ¬ 1 < (se_matching field pattern listing).length) :
    get_node field pattern listing k =
      selectOutcome (pyChoice (se_filtered field pattern listing) k) := by
  unfold get_node
  rw [if_neg hp, if_neg h1, if_neg h2, if_neg h3]

/-- When no early error fires, `main` of `exits.py` reduces to choice plus
ip validation plus apply-or-preview. -/
theorem mainEx_eq_outcome {country : String} {dryRun : Bool} {listing : String} {k : Nat}
    (h1 : ex_countries listing ≠ []) (h2 : ex_matching country listing ≠ [])
    (h3 : ¬ 1 < (ex_matching country listing).length) :
    mainEx country dryRun listing k =
      exOutcome dryRun (pyChoice (ex_filtered country listing) k) := by
  unfold mainEx
  rw [if_neg h1, if_neg h2, if_neg h3]

/-- Outside the `none` short-circuit, a node returned by `get_node` passed
the ip format check. -/
theorem get_node_found_valid {field : Field} {pattern listing : String} {k : Nat}
    (hp : pattern ≠ "none") {n : ExitNode}
    (h : (get_node field pattern listing k).res = .found n) : validIp n.ip = true := by
  unfold get_node at h
  rw [if_neg hp] at h
  by_cases h1 : se_values field listing = []
  · rw [if_pos h1] at h; simp at h
  · rw [if_neg h1] at h
    by_cases h2 : se_matching field pattern listing = []
    · rw [if_pos h2] at h; simp at h
    · rw [if_neg h2] at h
      by_cases h3 : 1 < (se_matching field pattern listing).length
      · rw [if_pos h3] at h; simp at h
      · rw [if_neg h3] at h
        cases hc : pyChoice (se_filtered field pattern listing) k with
        | none => rw [hc] at h; simp [selectOutcome] at h
        | some m =>
          rw [hc] at h
          simp only [selectOutcome] at h
          by_cases hv : validIp m.ip
          · rw [if_pos hv] at h
            simp only [GetNodeRes.found.injEq] at h
            subst h; exact hv
          · rw [if_neg hv] at h; simp at h

/-- Every ip `exits.py` passes to the activation collaborator passed the
ip format check. -/
theorem mainEx_activations_valid {country : String} {dryRun : Bool} {listing : String}
    {k : Nat} : ∀ ip ∈ (mainEx country dryRun listing k).activations, validIp ip = true := by
  intro ip hip
  unfold mainEx at hip
  by_cases h1 : ex_countries listing = []
  · rw [if_pos h1] at hip; simp at hip
  · rw [if_neg h1] at hip
    by_cases h2 : ex_matching country listing = []
    · rw [if_pos h2] at hip; simp at hip
    · rw [if_neg h2] at hip
      by_cases h3 : 1 < (ex_matching country listing).length
      · rw [if_pos h3] at hip; simp at hip
      · rw [if_neg h3] at hip
        cases hc : pyChoice (ex_filtered country listing) k with
        | none => rw [hc] at hip; simp [exOutcome] at hip
        | some m =>
          rw [hc] at hip
          simp only [exOutcome] at hip
          by_cases hv : validIp m.ip
          · rw [if_pos hv] at hip
            cases dryRun with
            | true => simp at hip
            | false =>
              simp only [if_neg, Bool.false_eq_true, ite_false, List.mem_singleton] at hip
              subst hip; exact hv
          · rw [if_neg hv] at hip; simp at hip

/-- Every ip `set-exit.py` passes to the activation collaborator (outside
the `none` short-circuit) passed the ip format check. -/
theorem mainSE_activations_valid {field : Field} {pattern : String} {dryRun : Bool}
    {listing : String} {k : Nat} (hp : pattern ≠ "none") :
    ∀ ip ∈ (mainSE field pattern dryRun listing k).activations, validIp ip = true := by
  intro ip hip
  simp only [mainSE] at hip
  cases hres : (get_node field pattern listing k).res with
  | found n =>
    rw [hres] at hip
    cases dryRun with
    | true => simp at hip
    | false =>
      simp at hip
      subst hip
      exact get_node_found_valid hp hres
  | noneRet => rw [hres] at hip; simp at hip
  | crash => rw [hres] at hip; simp at hip

/-! ## Claims -/

/-- Claim C1, counterexample: with pattern `none` and dry-run off,
`set-exit.py` does invoke the activation collaborator (with the empty ip),
so "neither collaborator is invoked" fails. -/
theorem c1_counterexample :
    (mainSE .country "none" false exampleListing 0).activations ≠ [] := by decide

/-- Claim C1 (amended): pattern `none` short-circuits `get_node` for every
listing and mode: it yields the all-empty node record without fetching the
listing and without errors; in dry-run mode no activation happens, but in
normal mode the empty ip is passed to the activation collaborator (this is
how the exit node is disabled). -/
theorem c1_none_shortcircuit (field : Field) (listing : String) (dryRun : Bool) (k : Nat) :
    get_node field "none" listing k =
      { res := .found ⟨"", "", "", ""⟩, errs := [], fetched := false } ∧
    (mainSE field "none" dryRun listing k).fetched = false ∧
    (mainSE field "none" dryRun listing k).stderr = [] ∧
    (mainSE field "none" dryRun listing k).activations = (if dryRun then [] else [""]) := by
  refine ⟨rfl, ?_, ?_, ?_⟩ <;> cases dryRun <;> rfl

/-- Claim C2: on each failure kind (empty listing, no match, ambiguous
match, invalid ip) both scripts report the error on stderr and never
activate; but `set-exit.py` then crashes with an uncaught `TypeError`
(`None` subscripted in `main`) instead of returning normally, while
`exits.py` returns normally. -/
theorem c2_failure_handling :
    mainSE .country "x" false "" 0 =
      { stdout := [], stderr := [.noExitNodes], activations := [], fetched := true,
        crashed := true } ∧
    mainSE .country "zzzz" false exampleListing 0 =
      { stdout := [], stderr := [.noMatch .country "zzzz" ["Sweden"]], activations := [],
        fetched := true, crashed := true } ∧
    mainSE .city "o" false exampleListing 0 =
      { stdout := [], stderr := [.ambiguous .city "o" ["Gothenburg", "Stockholm"]],
        activations := [], fetched := true, crashed := true } ∧
    mainSE .country "swe" false "10.0.0  badhost  Sweden  Stockholm" 0 =
      { stdout := [], stderr := [.invalidIp], activations := [], fetched := true,
        crashed := true } ∧
    mainEx "x" false "" 0 =
      { stdout := [], stderr := [.noExitNodes], activations := [], fetched := true,
        crashed := false } ∧
    mainEx "zzzz" false exampleListing 0 =
      { stdout := [], stderr := [.noMatch .country "zzzz" ["Sweden", "United Kingdom"]],
        activations := [], fetched := true, crashed := false } ∧
    mainEx "e" false exampleListing 0 =
      { stdout := [], stderr := [.ambiguous .country "e" ["Sweden", "United Kingdom"]],
        activations := [], fetched := true, crashed := false } ∧
    mainEx "swe" false "10.0.0  badhost  Sweden  Stockholm" 0 =
      { stdout := [], stderr := [.invalidIp], activations := [], fetched := true,
        crashed := false } :=
  ⟨rfl, rfl, rfl, rfl, rfl, rfl, rfl, rfl⟩

/-- Claim C9, counterexample: on the spec's own example listing, the
`set-exit.py` variant tokenizes the third line into only 3 fields (its
country and city are separated by a single space), discards it, and so
pattern `united` with field country in dry-run mode produces no preview at
all: it reports a no-match error and crashes. -/
theorem c9_counterexample :
    (mainSE .country "united" true exampleListing 0).stdout = [] ∧
    (mainSE .country "united" true exampleListing 0).stderr =
      [.noMatch .country "united" ["Sweden"]] ∧
    (mainSE .country "united" true exampleListing 0).crashed = true :=
  ⟨rfl, rfl, rfl⟩

/-- Claim C7: for every raw listing, lines beginning with a hash and lines
with fewer than 4 fields under the respective tokenization contribute no
record: dropping them from the line list leaves each parser's output
unchanged. -/
theorem c7_comments_and_short_lines (output : String) :
    parse_exit_nodes_se output =
      ((splitOnChar '\n' (pyStrip output.data)).filter
        (fun l => !startsHash l && decide (4 ≤ (seTokens l).length))).filterMap lineStepSE ∧
    parse_exit_nodes_ex output =
      ((splitOnChar '\n' (pyStrip output.data)).filter
        (fun l => !startsHash l && decide (4 ≤ (exTokens l).length))).filterMap lineStepEx := by
  constructor
  · apply filterMap_drop_filtered
    intro l _ hp
    unfold lineStepSE
    by_cases hs : startsHash l
    · rw [if_pos hs]
    · rw [if_neg hs]
      apply parseLineSE_eq_none
      have hs0 : startsHash l = false := by
        cases hb : startsHash l
        · rfl
        · exact absurd hb hs
      by_contra hge
      push_neg at hge
      rw [hs0, decide_eq_true hge] at hp
      simp at hp
  · apply filterMap_drop_filtered
    intro l _ hp
    unfold lineStepEx
    by_cases hs : startsHash l
    · rw [if_pos hs]
    · rw [if_neg hs]
      apply parseLineEx_eq_none
      have hs0 : startsHash l = false := by
        cases hb : startsHash l
        · rfl
        · exact absurd hb hs
      by_contra hge
      push_neg at hge
      rw [hs0, decide_eq_true hge] at hp
      simp at hp

/-- Claim C6: a listing whose lines are all non-comment and well-formed
(at least 4 fields under the given tokenization) parses to exactly one
record per line, in order, duplicates preserved: the records list has the
same length as the line list and its `i`-th entry is the parse of the
`i`-th line. -/
theorem c6_wellformed_listing (output : String) :
    ((∀ l ∈ splitOnChar '\n' (pyStrip output.data),
        startsHash l = false ∧ 4 ≤ (seTokens l).length) →
      (parse_exit_nodes_se output).length =
        (splitOnChar '\n' (pyStrip output.data)).length ∧
      ∀ i : Nat, (parse_exit_nodes_se output)[i]? =
        ((splitOnChar '\n' (pyStrip output.data))[i]?).bind parseLineSE) ∧
    ((∀ l ∈ splitOnChar '\n' (pyStrip output.data),
        startsHash l = false ∧ 4 ≤ (exTokens l).length) →
      (parse_exit_nodes_ex output).length =
        (splitOnChar '\n' (pyStrip output.data)).length ∧
      ∀ i : Nat, (parse_exit_nodes_ex output)[i]? =
        ((splitOnChar '\n' (pyStrip output.data))[i]?).bind parseLineEx) := by
  constructor
  · intro h
    unfold parse_exit_nodes_se
    rw [filterMap_congr_on lineStepSE parseLineSE _ (fun l hl => by
      unfold lineStepSE
      rw [(h l hl).1]
      simp)]
    exact filterMap_all_some parseLineSE _ (fun l hl => parseLineSE_isSome (h l hl).2)
  · intro h
    unfold parse_exit_nodes_ex
    rw [filterMap_congr_on lineStepEx parseLineEx _ (fun l hl => by
      unfold lineStepEx
      rw [(h l hl).1]
      simp)]
    exact filterMap_all_some parseLineEx _ (fun l hl => parseLineEx_isSome (h l hl).2)

/-- Witness for C6 at a concrete two-line, fully well-formed listing. -/
theorem c6_witness :
    (parse_exit_nodes_se "100.64.0.1  h1  Sweden  Stockholm\n100.64.0.2  h2  France  Paris").length = 2 ∧
    (parse_exit_nodes_ex "100.64.0.1  h1  Sweden  Stockholm\n100.64.0.2  h2  France  Paris").length = 2 ∧
    (parse_exit_nodes_se "100.64.0.1  h1  Sweden  Stockholm\n100.64.0.2  h2  France  Paris")[1]? =
      ((splitOnChar '\n'
        (pyStrip "100.64.0.1  h1  Sweden  Stockholm\n100.64.0.2  h2  France  Paris".data))[1]?).bind
        parseLineSE := by
  refine ⟨((c6_wellformed_listing _).1 (by decide)).1, ((c6_wellformed_listing _).2 (by decide)).1,
    ((c6_wellformed_listing _).1 (by decide)).2 1⟩

/-- Claim C8: the distinct-value enumeration is sorted ascending (in the
code-point order Python `sorted` uses) with no duplicates, contains
exactly the values occurring in the nodes for the chosen field, and is
idempotent: re-enumerating over records built from its own output returns
the same list; `exits.py`'s country enumeration is the same operation
fixed to the country field. -/
theorem c8_unique_values (nodes : List ExitNode) (field : Field) :
    List.Sorted pyStrLe (get_unique_values nodes field) ∧
    (get_unique_values nodes field).Nodup ∧
    (∀ v, v ∈ get_unique_values nodes field ↔ ∃ n ∈ nodes, getField field n = v) ∧
    get_unique_values ((get_unique_values nodes field).map (mkNodeWith field)) field =
      get_unique_values nodes field ∧
    get_unique_countries nodes = get_unique_values nodes .country := by
  have htot : IsTotal String pyStrLe := ⟨fun a b => lexLe_total a.data b.data⟩
  have htrans : IsTrans String pyStrLe := ⟨fun a b c => lexLe_trans a.data b.data c.data⟩
  have hsorted : List.Sorted pyStrLe (get_unique_values nodes field) :=
    @List.sorted_insertionSort String pyStrLe _ htot htrans _
  have hnodup : (get_unique_values nodes field).Nodup :=
    ((List.perm_insertionSort pyStrLe _).nodup_iff).2 (List.nodup_dedup _)
  refine ⟨hsorted, hnodup, fun v => mem_get_unique_values, ?_, rfl⟩
  have key : ((get_unique_values nodes field).map (mkNodeWith field)).map (getField field) =
      get_unique_values nodes field := by
    rw [List.map_map]
    have hcomp : (getField field ∘ mkNodeWith field) = id := by
      funext v; cases field <;> rfl
    rw [hcomp, List.map_id]
  calc get_unique_values ((get_unique_values nodes field).map (mkNodeWith field)) field
      = List.insertionSort pyStrLe
          ((((get_unique_values nodes field).map (mkNodeWith field)).map
            (getField field)).dedup) := rfl
    _ = List.insertionSort pyStrLe ((get_unique_values nodes field).dedup) := by rw [key]
    _ = List.insertionSort pyStrLe (get_unique_values nodes field) := by
        rw [List.dedup_eq_self.2 hnodup]
    _ = get_unique_values nodes field := List.Sorted.insertionSort_eq hsorted

/-- Claim C10: whenever matching succeeds with a unique value, the
node-filtering step is non-empty (the value came from the very nodes being
filtered), so `random.choice` is well-defined and, for every random
outcome, returns a node whose selected field equals the matched value. -/
theorem c10_selection_welldefined (nodes : List ExitNode) (field : Field)
    (pattern v : String)
    (h : matchingValues pattern (get_unique_values nodes field) = [v]) :
    nodes.filter (fun n => getField field n == v) ≠ [] ∧
    ∀ k : Nat, ∃ n, pyChoice (nodes.filter (fun n => getField field n == v)) k = some n ∧
      getField field n = v := by
  have hv : v ∈ matchingValues pattern (get_unique_values nodes field) := by
    rw [h]; exact List.mem_cons_self v []
  have hvv : v ∈ get_unique_values nodes field := List.mem_of_mem_filter hv
  obtain ⟨n0, hn0, hf0⟩ := mem_get_unique_values.1 hvv
  have hmem : n0 ∈ nodes.filter (fun n => getField field n == v) :=
    List.mem_filter.2 ⟨hn0, by simp [hf0]⟩
  have hne : nodes.filter (fun n => getField field n == v) ≠ [] :=
    List.ne_nil_of_mem hmem
  refine ⟨hne, fun k => ?_⟩
  obtain ⟨n, hn, hmemn⟩ := pyChoice_eq_some _ k hne
  exact ⟨n, hn, by simpa using (List.mem_filter.1 hmemn).2⟩

/-- Witness for C10 on a one-node list with a uniquely matching pattern. -/
theorem c10_witness :
    ([⟨"1.2.3.4", "h", "Sweden", "Stockholm"⟩] : List ExitNode).filter
        (fun n => getField .country n == "Sweden") ≠ [] ∧
    ∃ n, pyChoice (([⟨"1.2.3.4", "h", "Sweden", "Stockholm"⟩] : List ExitNode).filter
        (fun n => getField .country n == "Sweden")) 0 = some n ∧
      getField .country n = "Sweden" := by
  have h := c10_selection_welldefined [⟨"1.2.3.4", "h", "Sweden", "Stockholm"⟩] .country
    "swe" "Sweden" (by rfl)
  exact ⟨h.1, h.2 0⟩

/-- Claim C3: matching keeps exactly the enumerated values containing the
pattern as a case-insensitive substring; with a non-empty value list, zero
matches end the run with a no-match error reporting all available values,
two or more with an ambiguous-match error reporting the colliding values,
and a unique match proceeds to selection with that value — in both
scripts. -/
theorem c3_matching_disambiguation (field : Field) (pattern listing : String)
    (dryRun : Bool) (k : Nat) (hp : pattern ≠ "none") :
    (∀ v, v ∈ se_matching field pattern listing ↔
        v ∈ se_values field listing ∧
        ∃ l r, (pyLower v).data = l ++ (pyLower pattern).data ++ r) ∧
    (se_values field listing ≠ [] → se_matching field pattern listing = [] →
      get_node field pattern listing k =
        { res := .noneRet, errs := [.noMatch field pattern (se_values field listing)],
          fetched := true }) ∧
    (se_values field listing ≠ [] → 1 < (se_matching field pattern listing).length →
      get_node field pattern listing k =
        { res := .noneRet,
          errs := [.ambiguous field pattern (se_matching field pattern listing)],
          fetched := true }) ∧
    (∀ v, se_values field listing ≠ [] → se_matching field pattern listing = [v] →
      ∃ n, pyChoice (se_filtered field pattern listing) k = some n ∧
        getField field n = v ∧
        get_node field pattern listing k = selectOutcome (some n)) ∧
    (∀ v, v ∈ ex_matching pattern listing ↔
        v ∈ ex_countries listing ∧
        ∃ l r, (pyLower v).data = l ++ (pyLower pattern).data ++ r) ∧
    (ex_countries listing ≠ [] → ex_matching pattern listing = [] →
      mainEx pattern dryRun listing k =
        { stdout := [], stderr := [.noMatch .country pattern (ex_countries listing)],
          activations := [], fetched := true, crashed := false }) ∧
    (ex_countries listing ≠ [] → 1 < (ex_matching pattern listing).length →
      mainEx pattern dryRun listing k =
        { stdout := [],
          stderr := [.ambiguous .country pattern (ex_matching pattern listing)],
          activations := [], fetched := true, crashed := false }) ∧
    (∀ v, ex_countries listing ≠ [] → ex_matching pattern listing = [v] →
      ∃ n, pyChoice (ex_filtered pattern listing) k = some n ∧ n.country = v ∧
        mainEx pattern dryRun listing k = exOutcome dryRun (some n)) := by
  have hchar : ∀ (values : List String) (v : String),
      v ∈ matchingValues pattern values ↔
      v ∈ values ∧ ∃ l r, (pyLower v).data = l ++ (pyLower pattern).data ++ r := by
    intro values v
    unfold matchingValues pyContains
    rw [List.mem_filter, isSubstrB_iff]
  refine ⟨hchar _, ?_, ?_, ?_, hchar _, ?_, ?_, ?_⟩
  · intro hv hm
    unfold get_node
    rw [if_neg hp, if_neg hv, if_pos hm]
  · intro hv hlen
    have hm : se_matching field pattern listing ≠ [] := by
      intro h0; rw [h0] at hlen; simp at hlen
    unfold get_node
    rw [if_neg hp, if_neg hv, if_neg hm, if_pos hlen]
  · intro v hv hm
    have hm1 : se_matching field pattern listing ≠ [] := by rw [hm]; simp
    have hm2 : ¬ 1 < (se_matching field pattern listing).length := by rw [hm]; simp
    have hfil : se_filtered field pattern listing =
        (parse_exit_nodes_se listing).filter (fun n => getField field n == v) := by
      unfold se_filtered
      rw [hm]
      rfl
    have hvm : v ∈ se_matching field pattern listing := by rw [hm]; exact List.mem_cons_self v []
    have hvv : v ∈ se_values field listing := List.mem_of_mem_filter hvm
    obtain ⟨n0, hn0, hf0⟩ := mem_get_unique_values.1 hvv
    have hne : se_filtered field pattern listing ≠ [] := by
      rw [hfil]
      exact List.ne_nil_of_mem (List.mem_filter.2 ⟨hn0, by simp [hf0]⟩)
    obtain ⟨n, hn, hmemn⟩ := pyChoice_eq_some _ k hne
    refine ⟨n, hn, ?_, ?_⟩
    · rw [hfil] at hmemn
      simpa using (List.mem_filter.1 hmemn).2
    · rw [get_node_eq_select hp hv hm1 hm2, hn]
  · intro hv hm
    unfold mainEx
    rw [if_neg hv, if_pos hm]
  · intro hv hlen
    have hm : ex_matching pattern listing ≠ [] := by
      intro h0; rw [h0] at hlen; simp at hlen
    unfold mainEx
    rw [if_neg hv, if_neg hm, if_pos hlen]
  · intro v hv hm
    have hm1 : ex_matching pattern listing ≠ [] := by rw [hm]; simp
    have hm2 : ¬ 1 < (ex_matching pattern listing).length := by rw [hm]; simp
    have hfil : ex_filtered pattern listing =
        (parse_exit_nodes_ex listing).filter (fun n => n.country == v) := by
      unfold ex_filtered
      rw [hm]
      rfl
    have hvm : v ∈ ex_matching pattern listing := by rw [hm]; exact List.mem_cons_self v []
    have hvv : v ∈ ex_countries listing := List.mem_of_mem_filter hvm
    have hmemc : v ∈ get_unique_values (parse_exit_nodes_ex listing) .country := hvv
    obtain ⟨n0, hn0, hf0⟩ := mem_get_unique_values.1 hmemc
    have hne : ex_filtered pattern listing ≠ [] := by
      rw [hfil]
      refine List.ne_nil_of_mem (List.mem_filter.2 ⟨hn0, ?_⟩)
      have : n0.country = v := hf0
      simp [this]
    obtain ⟨n, hn, hmemn⟩ := pyChoice_eq_some _ k hne
    refine ⟨n, hn, ?_, ?_⟩
    · rw [hfil] at hmemn
      simpa using (List.mem_filter.1 hmemn).2
    · rw [mainEx_eq_outcome hv hm1 hm2, hn]

/-- Witness for C3: on a one-node listing, pattern `swe` matches the single
country uniquely and selection proceeds with it. -/
theorem c3_witness :
    ∃ n, pyChoice (se_filtered .country "swe" "1.2.3.4  h  Sweden  Stockholm") 0 = some n ∧
      getField .country n = "Sweden" ∧
      get_node .country "swe" "1.2.3.4  h  Sweden  Stockholm" 0 = selectOutcome (some n) :=
  (c3_matching_disambiguation .country "swe" "1.2.3.4  h  Sweden  Stockholm" false 0
    (by decide)).2.2.2.1 "Sweden" (by decide) (by rfl)

/-- Claim C4, counterexample: the `none` short-circuit of `set-exit.py`
passes the empty ip — which fails the dotted-quad pattern — to the
activation collaborator, so "activation only for pattern-matching ips"
does not hold unconditionally. -/
theorem c4_counterexample :
    (mainSE .country "none" false exampleListing 0).activations = [""] ∧
    validIp "" = false :=
  ⟨rfl, rfl⟩

/-- Claim C4 (amended): outside the `none` short-circuit, every ip either
script passes to the activation collaborator satisfies the dotted-quad
pattern, and a selected node whose ip fails the pattern produces the
invalid-ip error — distinct from the no-match error — with no activation
(and, in `set-exit.py`, the `None`-subscript crash after the report). -/
theorem c4_ip_validation (field : Field) (pattern : String) (dryRun : Bool)
    (listing : String) (k : Nat) (hp : pattern ≠ "none") :
    (∀ ip ∈ (mainSE field pattern dryRun listing k).activations, validIp ip = true) ∧
    (∀ ip ∈ (mainEx pattern dryRun listing k).activations, validIp ip = true) ∧
    (∀ n, pyChoice (se_filtered field pattern listing) k = some n →
      validIp n.ip = false →
      se_values field listing ≠ [] → se_matching field pattern listing ≠ [] →
      ¬ 1 < (se_matching field pattern listing).length →
      mainSE field pattern dryRun listing k =
        { stdout := [], stderr := [.invalidIp], activations := [], fetched := true,
          crashed := true }) ∧
    (∀ n, pyChoice (ex_filtered pattern listing) k = some n →
      validIp n.ip = false →
      ex_countries listing ≠ [] → ex_matching pattern listing ≠ [] →
      ¬ 1 < (ex_matching pattern listing).length →
      mainEx pattern dryRun listing k =
        { stdout := [], stderr := [.invalidIp], activations := [], fetched := true,
          crashed := false }) := by
  refine ⟨mainSE_activations_valid hp, mainEx_activations_valid, ?_, ?_⟩
  · intro n hc hnv h1 h2 h3
    have hg : get_node field pattern listing k =
        { res := .noneRet, errs := [.invalidIp], fetched := true } := by
      rw [get_node_eq_select hp h1 h2 h3, hc]
      simp only [selectOutcome]
      rw [if_neg (by simp [hnv])]
    simp only [mainSE, hg]
  · intro n hc hnv h1 h2 h3
    rw [mainEx_eq_outcome h1 h2 h3, hc]
    simp only [exOutcome]
    rw [if_neg (by simp [hnv])]

/-- Witness for C4: a listing whose single node has the malformed ip
`10.0.0`; the node is uniquely matched, yet rejected with the invalid-ip
error and no activation. -/
theorem c4_witness :
    validIp "10.0.0" = false ∧
    mainSE .country "swe" true "10.0.0  badhost  Sweden  Stockholm" 0 =
      { stdout := [], stderr := [.invalidIp], activations := [], fetched := true,
        crashed := true } := by
  refine ⟨rfl, ?_⟩
  exact (c4_ip_validation .country "swe" true "10.0.0  badhost  Sweden  Stockholm" 0
    (by decide)).2.2.1 ⟨"10.0.0", "badhost", "Sweden", "Stockholm"⟩ (by rfl) (by rfl)
    (by decide) (by decide) (by decide)

/-- Claim C5: on any whitespace-tokenized line with at least 4 tokens, the
`exits.py` parser keeps the line and splits the tokens after ip and
hostname by the greedy allow-list heuristic: if some shortest prefix joins
to an allow-listed country with a token left after it, that prefix (joined
by single spaces) is the country and the joined remainder is the city;
otherwise the first remaining token is the country and the joined rest is
the city. -/
theorem c5_country_heuristic (ip hn r : String) (rs : List String) (hrs : rs ≠ []) :
    (∃ i, 1 ≤ i ∧ splitCond (r :: rs) i ∧
      (∀ m, 1 ≤ m → m < i → ¬ splitCond (r :: rs) m) ∧
      parseTokensEx (ip :: hn :: r :: rs) =
        some ⟨ip, hn, String.intercalate " " ((r :: rs).take i),
          String.intercalate " " ((r :: rs).drop i)⟩) ∨
    ((∀ m, 1 ≤ m → ¬ splitCond (r :: rs) m) ∧
      parseTokensEx (ip :: hn :: r :: rs) =
        some ⟨ip, hn, r, String.intercalate " " rs⟩) := by
  have hlen : 2 ≤ (r :: rs).length := by
    cases rs with
    | nil => exact absurd rfl hrs
    | cons x xs => simp
  have hpt : parseTokensEx (ip :: hn :: r :: rs) =
      some ⟨ip, hn, String.intercalate " " (splitCountryCity (r :: rs)).1,
        String.intercalate " " (splitCountryCity (r :: rs)).2⟩ := by
    simp only [parseTokensEx]
    rw [if_pos hlen]
  cases hfs : findSplit (r :: rs) with
  | some i =>
    left
    have hfs1 : findSplitAux (r :: rs) 1 (r :: rs).length = some i := hfs
    obtain ⟨h1, h2, h3⟩ := findSplitAux_some _ 1 i hfs1
    refine ⟨i, h1, h2, fun m hm1 hm2 => h3 m hm1 hm2, ?_⟩
    rw [hpt]
    have hsc : splitCountryCity (r :: rs) = ((r :: rs).take i, (r :: rs).drop i) := by
      unfold splitCountryCity
      rw [hfs]
    rw [hsc]
  | none =>
    right
    have hfs1 : findSplitAux (r :: rs) 1 (r :: rs).length = none := hfs
    have hnone := findSplitAux_none _ 1 hfs1
    constructor
    · intro m hm1
      by_cases hmlen : m < 1 + (r :: rs).length
      · exact hnone m hm1 hmlen
      · exact splitCond_not_of_len (by omega)
    · rw [hpt]
      have hsc : splitCountryCity (r :: rs) = ([r], rs) := by
        unfold splitCountryCity
        rw [hfs]
      rw [hsc]
      rfl

/-- Witness for C5 on the tokens of the example's United Kingdom line. -/
theorem c5_witness :
    (∃ i, 1 ≤ i ∧ splitCond ["United", "Kingdom", "London"] i ∧
      (∀ m, 1 ≤ m → m < i → ¬ splitCond ["United", "Kingdom", "London"] m) ∧
      parseTokensEx ["100.64.0.3", "node-uk-1", "United", "Kingdom", "London"] =
        some ⟨"100.64.0.3", "node-uk-1",
          String.intercalate " " (["United", "Kingdom", "London"].take i),
          String.intercalate " " (["United", "Kingdom", "London"].drop i)⟩) ∨
    ((∀ m, 1 ≤ m → ¬ splitCond ["United", "Kingdom", "London"] m) ∧
      parseTokensEx ["100.64.0.3", "node-uk-1", "United", "Kingdom", "London"] =
        some ⟨"100.64.0.3", "node-uk-1", "United",
          String.intercalate " " ["Kingdom", "London"]⟩) :=
  c5_country_heuristic "100.64.0.3" "node-uk-1" "United" ["Kingdom", "London"] (by decide)

/-- Claim C9 (amended): on the spec's example listing, pattern `sweden` on
the country field selects one of the two Swedish nodes for every random
outcome, and pattern `gothen` on the city field selects exactly the node
with ip `100.64.0.2` (both in `set-exit.py`, the variant with field
flags); pattern `united` on the country field in dry-run mode yields, in
`exits.py` (whose tokenization parses the United Kingdom line), a preview
containing `United Kingdom` and `London` and no activation call — while in
`set-exit.py` that line is discarded and `united` reports a no-match
error. -/
theorem c9_end_to_end :
    (∀ k : Nat, ∃ n, (get_node .country "sweden" exampleListing k).res = .found n ∧
      (n.ip = "100.64.0.1" ∨ n.ip = "100.64.0.2")) ∧
    (∀ k : Nat, ∃ n, (get_node .city "gothen" exampleListing k).res = .found n ∧
      n.ip = "100.64.0.2") ∧
    (∀ k : Nat, ∃ p, (mainEx "united" true exampleListing k).stdout = [p] ∧
      pyContains p "United Kingdom" = true ∧ pyContains p "London" = true ∧
      (mainEx "united" true exampleListing k).activations = []) ∧
    (∀ k : Nat, (mainSE .country "united" true exampleListing k).stderr =
      [.noMatch .country "united" ["Sweden"]]) := by
  refine ⟨fun k => ?_, fun k => ?_, fun k => ?_, fun k => rfl⟩
  · have base : get_node .country "sweden" exampleListing k =
        selectOutcome (pyChoice
          [(⟨"100.64.0.1", "node-se-1", "Sweden", "Stockholm"⟩ : ExitNode),
           ⟨"100.64.0.2", "node-se-2", "Sweden", "Gothenburg"⟩] k) := rfl
    rcases Nat.mod_two_eq_zero_or_one k with h | h
    · refine ⟨⟨"100.64.0.1", "node-se-1", "Sweden", "Stockholm"⟩, ?_, Or.inl rfl⟩
      rw [base]
      have hch : pyChoice
          [(⟨"100.64.0.1", "node-se-1", "Sweden", "Stockholm"⟩ : ExitNode),
           ⟨"100.64.0.2", "node-se-2", "Sweden", "Gothenburg"⟩] k =
          some ⟨"100.64.0.1", "node-se-1", "Sweden", "Stockholm"⟩ := by
        show ([(⟨"100.64.0.1", "node-se-1", "Sweden", "Stockholm"⟩ : ExitNode),
           ⟨"100.64.0.2", "node-se-2", "Sweden", "Gothenburg"⟩])[k % 2]? = _
        rw [h]
        rfl
      rw [hch]
      rfl
    · refine ⟨⟨"100.64.0.2", "node-se-2", "Sweden", "Gothenburg"⟩, ?_, Or.inr rfl⟩
      rw [base]
      have hch : pyChoice
          [(⟨"100.64.0.1", "node-se-1", "Sweden", "Stockholm"⟩ : ExitNode),
           ⟨"100.64.0.2", "node-se-2", "Sweden", "Gothenburg"⟩] k =
          some ⟨"100.64.0.2", "node-se-2", "Sweden", "Gothenburg"⟩ := by
        show ([(⟨"100.64.0.1", "node-se-1", "Sweden", "Stockholm"⟩ : ExitNode),
           ⟨"100.64.0.2", "node-se-2", "Sweden", "Gothenburg"⟩])[k % 2]? = _
        rw [h]
        rfl
      rw [hch]
      rfl
  · have base : get_node .city "gothen" exampleListing k =
        selectOutcome (pyChoice
          [(⟨"100.64.0.2", "node-se-2", "Sweden", "Gothenburg"⟩ : ExitNode)] k) := rfl
    refine ⟨⟨"100.64.0.2", "node-se-2", "Sweden", "Gothenburg"⟩, ?_, rfl⟩
    rw [base]
    have hch : pyChoice
        [(⟨"100.64.0.2", "node-se-2", "Sweden", "Gothenburg"⟩ : ExitNode)] k =
        some ⟨"100.64.0.2", "node-se-2", "Sweden", "Gothenburg"⟩ := by
      show ([(⟨"100.64.0.2", "node-se-2", "Sweden", "Gothenburg"⟩ : ExitNode)])[k % 1]? = _
      rw [Nat.mod_one]
      rfl
    rw [hch]
    rfl
  · have base : mainEx "united" true exampleListing k =
        exOutcome true (pyChoice
          [(⟨"100.64.0.3", "node-uk-1", "United Kingdom", "London"⟩ : ExitNode)] k) := rfl
    have hch : pyChoice
        [(⟨"100.64.0.3", "node-uk-1", "United Kingdom", "London"⟩ : ExitNode)] k =
        some ⟨"100.64.0.3", "node-uk-1", "United Kingdom", "London"⟩ := by
      show ([(⟨"100.64.0.3", "node-uk-1", "United Kingdom", "London"⟩ : ExitNode)])[k % 1]? = _
      rw [Nat.mod_one]
      rfl
    refine ⟨previewMsg ⟨"100.64.0.3", "node-uk-1", "United Kingdom", "London"⟩,
      ?_, rfl, rfl, ?_⟩
    · rw [base, hch]
      rfl
    · rw [base, hch]
      rfl

end Exits
